import Mathlib

/-!
Shallow embedding of the team-identity resolution and incremental ingestion
subsystem of `fetch_daily_gamelogs.py` (the daily MLB scorigami ingestion
script).  Python strings are Lean `String`s; Python string operations
(`lower`, `split`, `int()`, `strptime`/`strftime`) are modelled over the
underlying character lists; Python dicts are association lists with
insertion-order iteration and last-write-wins updates; the database is a list
of persisted rows; exceptions become `Option` results or explicit outcome
parameters.
-/

namespace Scorigami

/-- ASCII lower-casing of one character, as Python `str.lower` acts on the
ASCII team names this system sees. -/
def lowerChar (c : Char) : Char :=
  if 65 ≤ c.toNat ∧ c.toNat ≤ 90 then Char.ofNat (c.toNat + 32) else c

/-- Python `str.lower` on a string (ASCII range). -/
def lowerStr (s : String) : String :=
  String.mk (s.data.map lowerChar)

/-- Whitespace characters recognised by Python `str.split()` / `int()`
stripping (the ones relevant to this feed). -/
def isWSChar (c : Char) : Bool :=
  c = ' ' ∨ c = '\t' ∨ c = '\n' ∨ c = '\r'

/-- Helper for `splitWS`: accumulates the current word (reversed). -/
def splitWSAux : List Char → List Char → List String
  | [], acc => if acc.isEmpty then [] else [String.mk acc.reverse]
  | c :: cs, acc =>
    if isWSChar c then
      if acc.isEmpty then splitWSAux cs []
      else String.mk acc.reverse :: splitWSAux cs []
    else splitWSAux cs (c :: acc)

/-- Python `str.split()` with no argument: split on whitespace runs,
discarding empty tokens. -/
def splitWS (s : String) : List String :=
  splitWSAux s.data []

/-- Python `str.startswith`. -/
def startsWithStr (s p : String) : Bool :=
  p.data.isPrefixOf s.data

def isDigitChar (c : Char) : Bool :=
  48 ≤ c.toNat ∧ c.toNat ≤ 57

/-- Value of a nonempty all-digit character list, else `none`. -/
def digitsToNat (cs : List Char) : Option Nat :=
  if cs.isEmpty then none
  else if cs.all isDigitChar then
    some (cs.foldl (fun n c => n * 10 + (c.toNat - 48)) 0)
  else none

/-- Strip leading and trailing whitespace, as Python `int(str)` does. -/
def stripWS (cs : List Char) : List Char :=
  ((cs.dropWhile isWSChar).reverse.dropWhile isWSChar).reverse

/-- Python `int(s)` on a string: optional sign around a nonempty digit run,
whitespace-stripped; `none` models the `ValueError`. -/
def parsePyInt (s : String) : Option Int :=
  match stripWS s.data with
  | '-' :: rest => (digitsToNat rest).map (fun n => -(n : Int))
  | '+' :: rest => (digitsToNat rest).map (fun n => (n : Int))
  | rest => (digitsToNat rest).map (fun n => (n : Int))

/-- A Python value appearing in an API observation field: the feed delivers
strings and integers.  Absence / `None` is modelled by wrapping in `Option`
at the use sites. -/
inductive PyVal where
  | vStr (s : String)
  | vInt (n : Int)
deriving DecidableEq, Repr

/-- Python `str(v)`. -/
def pyStr : PyVal → String
  | .vStr s => s
  | .vInt n => toString n

/-- Python `int(v)` for a feed value: identity on ints, parse on strings;
`none` models the caught `ValueError`/`TypeError`. -/
def pyIntOfVal : PyVal → Option Int
  | .vInt n => some n
  | .vStr s => parsePyInt s

/-- Gregorian leap-year rule (as `datetime` uses). -/
def isLeapYear (y : Nat) : Bool :=
  (y % 4 = 0 && !(y % 100 = 0)) || y % 400 = 0

def daysInMonth (y m : Nat) : Nat :=
  if m = 2 then (if isLeapYear y then 29 else 28)
  else if m = 4 ∨ m = 6 ∨ m = 9 ∨ m = 11 then 30
  else 31

/-- Split a character list at `'-'` separators (for `%Y-%m-%d`). -/
def splitDashAux : List Char → List Char → List (List Char)
  | [], acc => [acc.reverse]
  | c :: cs, acc =>
    if c = '-' then acc.reverse :: splitDashAux cs []
    else splitDashAux cs (c :: acc)

/-- `datetime.strptime(s, '%Y-%m-%d')`: three dash-separated digit groups
(year up to four digits, month and day up to two), month and day in calendar
range; `none` models the `ValueError`. -/
def parseDate (s : String) : Option (Nat × Nat × Nat) :=
  match splitDashAux s.data [] with
  | [ys, ms, ds] =>
    if ys.length ≤ 4 ∧ ms.length ≤ 2 ∧ ds.length ≤ 2 then
      match digitsToNat ys, digitsToNat ms, digitsToNat ds with
      | some y, some m, some d =>
        if 1 ≤ y ∧ 1 ≤ m ∧ m ≤ 12 ∧ 1 ≤ d ∧ d ≤ daysInMonth y m then
          some (y, m, d)
        else none
      | _, _, _ => none
    else none
  | _ => none

def pad2 (n : Nat) : List Char :=
  [Char.ofNat (48 + n / 10 % 10), Char.ofNat (48 + n % 10)]

def pad4 (n : Nat) : List Char :=
  [Char.ofNat (48 + n / 1000 % 10), Char.ofNat (48 + n / 100 % 10),
   Char.ofNat (48 + n / 10 % 10), Char.ofNat (48 + n % 10)]

/-- `game_date_dt.strftime('%Y%m%d')`. -/
def fmtYYYYMMDD (d : Nat × Nat × Nat) : String :=
  String.mk (pad4 d.1 ++ pad2 d.2.1 ++ pad2 d.2.2)

/-- A Python dict with string keys as an association list in insertion
order: `d[k] = v` replaces the value in place when the key is present and
appends a new entry otherwise. -/
def dinsert : List (String × α) → String → α → List (String × α)
  | [], k, v => [(k, v)]
  | p :: d, k, v => if p.1 = k then (k, v) :: d else p :: dinsert d k v

/-- Python `dict.get(k)` (first matching key; keys are kept unique by
`dinsert`). -/
def dlookup : List (String × α) → String → Option α
  | [], _ => none
  | p :: d, k => if p.1 = k then some p.2 else dlookup d k

/-- One raw game observation from `statsapi.schedule`.  A field holds `none`
when the key is absent from the dict or mapped to Python `None` (the script
treats the two alike everywhere it reads these fields). -/
structure Game where
  game_id : Option PyVal := none
  game_date : Option String := none
  away_name : Option String := none
  home_name : Option String := none
  away_score : Option PyVal := none
  home_score : Option PyVal := none
  status : Option String := none
  game_type : Option String := none
deriving DecidableEq, Repr

/-- One row appended to `public.gamelogs` (column order `COLUMNS`). -/
structure GameRow where
  game_id : String
  date : String
  visitor_team : String
  home_team : String
  visitor_score : Int
  home_score : Int
deriving DecidableEq, Repr

/-- One row of `teams_with_franchise.csv` as pandas hands it to the mapping
loop; `none` is a NaN / missing cell (`pd.notna` false, or `pd.isna` true). -/
structure TeamRow where
  NICKNAME : Option String := none
  CITY : Option String := none
  FRANCHISE : Option String := none
  FIRST : Option PyVal := none
  LAST : Option String := none
deriving DecidableEq, Repr

/-- `int(row["FIRST"])` where a NaN cell raises (caught, row skipped). -/
def pyIntOfCell : Option PyVal → Option Int
  | none => none
  | some v => pyIntOfVal v

/-- The body of the team-mapping construction loop of
`fetch_daily_gamelogs.py` (lines 59–78) for one reference row: rows with a
missing franchise are ignored; `int(...)` failures on the years (the caught
`ValueError`/`TypeError`) skip the row; the `"Present"` / missing last year
maps to `current_year_map + 1`; a row whose active range contains
`current_year_map` registers its lower-cased nickname and, when a city is
present, the lower-cased "city nickname". -/
def buildStep (current_year_map : Int)
    (maps : List (String × String) × List (String × String)) (row : TeamRow) :
    List (String × String) × List (String × String) :=
  match row.FRANCHISE with
  | none => maps
  | some franchise_val =>
    match pyIntOfCell row.FIRST with
    | none => maps
    | some first_year =>
      match (match row.LAST with
             | some s =>
               if s = "Present" then some (current_year_map + 1)
               else parsePyInt s
             | none => some (current_year_map + 1)) with
      | none => maps
      | some last_year_val =>
        if first_year ≤ current_year_map ∧ current_year_map ≤ last_year_val then
          match row.NICKNAME with
          | none => maps
          | some nickname_val =>
            (dinsert maps.1 (lowerStr nickname_val) franchise_val,
             match row.CITY with
             | none => maps.2
             | some c =>
               dinsert maps.2 (lowerStr (c ++ " " ++ nickname_val)) franchise_val)
        else maps

/-- The team-mapping construction loop (lines 56–79): builds `team_mapping`
(nickname → franchise) and `full_name_mapping` ("city nickname" →
franchise) by folding `buildStep` over the reference rows. -/
def buildMappings (rows : List TeamRow) (current_year_map : Int) :
    List (String × String) × List (String × String) :=
  rows.foldl (buildStep current_year_map) ([], [])

/-- Python truthiness of a `str`-or-`None` franchise lookup result:
`None` and the empty string are falsy. -/
def truthyOptStr : Option String → Bool
  | some s => !(s == "")
  | none => false

/-- The per-side team-name resolution inlined in `process_single_game_data`
(lines 131–149): full-name lookup on the lower-cased name; on a falsy result,
nickname lookup on the lower-cased last whitespace token, with the full-name
lookup (lower-cased again) as the `dict.get` default; a falsy final result is
the not-found outcome. -/
def resolveName (fm tm : List (String × String)) (full : String) : Option String :=
  let r1 := dlookup fm (lowerStr full)
  let r2 :=
    if truthyOptStr r1 then r1
    else
      match (splitWS full).getLast? with
      | none => r1
      | some tok =>
        match dlookup tm (lowerStr tok) with
        | some v => some v
        | none => dlookup fm (lowerStr full)
  if truthyOptStr r2 then r2 else none

/-- `process_single_game_data(game_dict, game_id_str)` (lines 109–158):
validates and normalises one observation into a `GameRow`, `none` being the
logged per-item skip. -/
def process_single_game_data (fm tm : List (String × String))
    (g : Game) (game_id_str : String) : Option GameRow :=
  match g.game_date with
  | none => none
  | some ds =>
    if ds = "" then none
    else
      match g.away_name, g.home_name, g.away_score, g.home_score with
      | some an, some hn, some av, some hv =>
        match parseDate ds with
        | none => none
        | some d =>
          match resolveName fm tm an with
          | none => none
          | some vf =>
            match resolveName fm tm hn with
            | none => none
            | some hf =>
              match pyIntOfVal av, pyIntOfVal hv with
              | some a, some h => some ⟨game_id_str, fmtYYYYMMDD d, vf, hf, a, h⟩
              | _, _ => none
      | _, _, _, _ => none

/-- Outcome of the `SELECT DISTINCT game_id` read in
`load_processed_games_from_db`: either it completes, or the caught exception
interrupts it after `k` rows have been accumulated. -/
inductive ReadOutcome where
  | ok
  | failAfter (k : Nat)
deriving DecidableEq, Repr

/-- `load_processed_games_from_db(engine)` (lines 85–107): empty set when the
table or its `game_id` column is missing; otherwise the distinct ids read so
far, the caught mid-read exception leaving only a partial accumulation. -/
def load_processed_games_from_db (tableExists hasGameIdCol : Bool)
    (storeIds : List String) (ro : ReadOutcome) : List String :=
  if !tableExists then []
  else if !hasGameIdCol then []
  else
    (match ro with
     | .ok => storeIds
     | .failAfter k => storeIds.take k).foldl (fun s i => s.insert i) []

/-- The fetch loop of `check_and_process_games` (lines 170–194): the queried
windows' observation lists, in query order, merged into
`all_fetched_games_dict` keyed by the stringified `game_id`; observations
without an id are dropped, and a later observation for the same id
overwrites the earlier one. -/
def mergeGames (feeds : List (List Game)) : List (String × Game) :=
  feeds.foldl (fun d day =>
    day.foldl (fun d g =>
      match g.game_id with
      | some v => dinsert d (pyStr v) g
      | none => d) d) []

/-- `s == 'final' or s.startswith('completed early') or s == 'game over' or
s == 'completed'` on the lower-cased status. -/
def isCompletedStatus (s : String) : Bool :=
  s == "final" || startsWithStr s "completed early" || s == "game over" ||
    s == "completed"

/-- The loop state of `check_and_process_games`:
`new_games_to_append_data`, the in-run `processed_game_ids` set, and
`found_new_final_game_flag`. -/
structure ProcState where
  batch : List GameRow
  processed : List String
  flag : Bool
deriving DecidableEq, Repr

/-- `is_completed_status and is_regular_season` for one merged item, on the
status defaulted to `'Unknown'` and lower-cased and the game type defaulted
to `'Unknown'` (lines 202–213). -/
def passesFilters (item : String × Game) : Bool :=
  isCompletedStatus (lowerStr (item.2.status.getD "Unknown")) &&
    (item.2.game_type.getD "Unknown" == "R")

/-- The body of the per-game loop (lines 202–233): only a completed-status
regular-season game whose id is not yet processed is handed to
`process_single_game_data`, and only a non-`None` result is appended to
the batch, marks the id processed, and raises the flag. -/
def processOne (fm tm : List (String × String)) (st : ProcState)
    (item : String × Game) : ProcState :=
  if passesFilters item then
    if item.1 ∈ st.processed then st
    else
      match process_single_game_data fm tm item.2 item.1 with
      | some row => ⟨st.batch ++ [row], st.processed.insert item.1, true⟩
      | none => st
  else st

/-- The loop of `check_and_process_games` run over the merged dict, started
from the ids loaded from the store. -/
def cycleState (fm tm : List (String × String)) (known : List String)
    (feeds : List (List Game)) : ProcState :=
  (mergeGames feeds).foldl (processOne fm tm) ⟨[], known, false⟩

/-- `check_and_process_games(engine)` (lines 160–251).  Returns the boolean
the function returns, paired with the rows that end up appended to
`public.gamelogs` (empty when the batch is empty or `to_sql` raises; a raise
makes the function return `False`). -/
def check_and_process_games (fm tm : List (String × String))
    (tableExists hasGameIdCol : Bool) (storeIds : List String)
    (ro : ReadOutcome) (feeds : List (List Game)) (appendOk : Bool) :
    Bool × List GameRow :=
  let st := cycleState fm tm
    (load_processed_games_from_db tableExists hasGameIdCol storeIds ro) feeds
  if st.batch = [] then (st.flag, [])
  else if appendOk then (st.flag, st.batch)
  else (false, [])

/-- The `__main__` block (lines 275–291): `regenerate_full_csv` runs exactly
when `check_and_process_games` returned `True`. -/
def main_export_runs (fm tm : List (String × String))
    (tableExists hasGameIdCol : Bool) (storeIds : List String)
    (ro : ReadOutcome) (feeds : List (List Game)) (appendOk : Bool) : Bool :=
  (check_and_process_games fm tm tableExists hasGameIdCol storeIds ro feeds
    appendOk).1

/-! Concrete instances used to exercise the definitions. -/

/-- The §8 scenario's registry row for the Boston franchise. -/
def soxRow : TeamRow where
  NICKNAME := some "Sox"
  CITY := some "Boston"
  FRANCHISE := some "BOS"
  FIRST := some (.vInt 1908)
  LAST := some "Present"

/-- A registry row letting "New York Yankees" resolve in the §8 scenario. -/
def nyaRow : TeamRow where
  NICKNAME := some "Yankees"
  CITY := some "New York"
  FRANCHISE := some "NYA"
  FIRST := some (.vInt 1903)
  LAST := some "Present"

/-- A franchise active 1962–1969 under nickname "Mets". -/
def metsRow : TeamRow where
  NICKNAME := some "Mets"
  FRANCHISE := some "NYN"
  FIRST := some (.vInt 1962)
  LAST := some "1969"

/-- The two mappings built from the §8 registry rows as of 2024. -/
def maps8 : List (String × String) × List (String × String) :=
  buildMappings [soxRow, nyaRow] 2024

/-- `full_name_mapping` of the §8 scenario. -/
def fm8 : List (String × String) := maps8.2

/-- `team_mapping` of the §8 scenario. -/
def tm8 : List (String × String) := maps8.1

/-- The §8 scenario observation. -/
def obs8 : Game where
  game_id := some (.vStr "2024_07_04_BOS_NYA")
  game_date := some "2024-07-04"
  away_name := some "New York Yankees"
  home_name := some "Boston Sox"
  away_score := some (.vInt 3)
  home_score := some (.vInt 5)
  status := some "Final"
  game_type := some "R"

/-- The row the script actually persists for the §8 scenario. -/
def row8 : GameRow :=
  ⟨"2024_07_04_BOS_NYA", "20240704", "NYA", "BOS", 3, 5⟩

/-- The §8 observation with a negative visitor score delivered as a string. -/
def obsNeg : Game :=
  { obs8 with away_score := some (.vStr "-1") }

/-- An otherwise-final observation whose `status` key is absent. -/
def gNoStatus : Game :=
  { obs8 with status := none }

/-- An otherwise-final observation whose `game_type` key is absent. -/
def gNoType : Game :=
  { obs8 with game_type := none }

/-- The §8 observation with `home_score` absent. -/
def gNoHome : Game :=
  { obs8 with home_score := none }

/-- Whether the per-game loop would accept this merged item: completed
status, regular-season type, and a resolver success. -/
def acceptsItem (fm tm : List (String × String)) (item : String × Game) : Bool :=
  passesFilters item && (process_single_game_data fm tm item.2 item.1).isSome

/-! Association-list and set-accumulation lemmas. -/

theorem dlookup_dinsert_self (d : List (String × α)) (k : String) (v : α) :
    dlookup (dinsert d k v) k = some v := by
  induction d with
  | nil => simp [dinsert, dlookup]
  | cons p d ih =>
    by_cases hp : p.1 = k
    · simp [dinsert, dlookup, hp]
    · simp [dinsert, dlookup, hp, ih]

theorem dlookup_dinsert_ne (d : List (String × α)) (k k' : String) (v : α)
    (h : k ≠ k') : dlookup (dinsert d k v) k' = dlookup d k' := by
  induction d with
  | nil => simp [dinsert, dlookup, h]
  | cons p d ih =>
    by_cases hp : p.1 = k
    · simp [dinsert, dlookup, hp, h, ih]
    · simp [dinsert, dlookup, hp, ih]

theorem mem_foldl_insert (l : List String) (s : List String) (x : String) :
    x ∈ l.foldl (fun s i => s.insert i) s ↔ x ∈ s ∨ x ∈ l := by
  induction l generalizing s with
  | nil => simp
  | cons a l ih => simp [ih, List.mem_insert_iff]; tauto

theorem mem_load_ok (storeIds : List String) (x : String) :
    x ∈ load_processed_games_from_db true true storeIds .ok ↔ x ∈ storeIds := by
  simp [load_processed_games_from_db, mem_foldl_insert]

/-! Per-game loop lemmas. -/

/-- A successful `process_single_game_data` call is fully characterised by
its field-by-field validation succeeding. -/
theorem process_some_iff (fm tm : List (String × String)) (g : Game)
    (gid : String) (row : GameRow) :
    process_single_game_data fm tm g gid = some row ↔
      ∃ ds d an hn av hv vf hf a b,
        g.game_date = some ds ∧ ds ≠ "" ∧
        g.away_name = some an ∧ g.home_name = some hn ∧
        g.away_score = some av ∧ g.home_score = some hv ∧
        parseDate ds = some d ∧
        resolveName fm tm an = some vf ∧ resolveName fm tm hn = some hf ∧
        pyIntOfVal av = some a ∧ pyIntOfVal hv = some b ∧
        row = ⟨gid, fmtYYYYMMDD d, vf, hf, a, b⟩ := by
  obtain ⟨gi, gd, an, hn, av, hv, stt, gt⟩ := g
  unfold process_single_game_data
  cases gd with
  | none => simp
  | some ds =>
    by_cases hds : ds = ""
    · simp [hds]
    · cases an with
      | none => simp [hds]
      | some an =>
        cases hn with
        | none => simp [hds]
        | some hn =>
          cases av with
          | none => simp [hds]
          | some av =>
            cases hv with
            | none => simp [hds]
            | some hv =>
              cases hpd : parseDate ds with
              | none => simp [hds, hpd]
              | some d =>
                cases hrv : resolveName fm tm an with
                | none => simp [hds, hpd, hrv]
                | some vf =>
                  cases hrh : resolveName fm tm hn with
                  | none => simp [hds, hpd, hrv, hrh]
                  | some hf =>
                    cases hav : pyIntOfVal av with
                    | none => simp [hds, hpd, hrv, hrh, hav]
                    | some a =>
                      cases hhv : pyIntOfVal hv with
                      | none => simp [hds, hpd, hrv, hrh, hav, hhv]
                      | some b =>
                        dsimp only
                        rw [if_neg hds]
                        simp only [hpd, hrv, hrh, hav, hhv, Option.some.injEq]
                        constructor
                        · intro h
                          exact ⟨ds, d, an, hn, av, hv, vf, hf, a, b,
                            rfl, hds, rfl, rfl, rfl, rfl, hpd, hrv, hrh,
                            hav, hhv, h.symm⟩
                        · rintro ⟨ds', d', an', hn', av', hv', vf', hf',
                            a', b', h1, h2, h3, h4, h5, h6, h7, h8, h9,
                            h10, h11, h12⟩
                          cases h1; cases h3; cases h4; cases h5; cases h6
                          rw [hpd] at h7
                          rw [hrv] at h8
                          rw [hrh] at h9
                          rw [hav] at h10
                          rw [hhv] at h11
                          cases h7; cases h8; cases h9; cases h10; cases h11
                          exact h12.symm

theorem process_game_id_eq (fm tm : List (String × String)) (g : Game)
    (gid : String) (row : GameRow)
    (h : process_single_game_data fm tm g gid = some row) : row.game_id = gid := by
  rw [process_some_iff] at h
  obtain ⟨_, _, _, _, _, _, _, _, _, _, _, _, _, _, _, _, _, _, _, _, _, h12⟩ := h
  rw [h12]

theorem processOne_eq_filtered (fm tm : List (String × String)) (st : ProcState)
    (item : String × Game) (h : passesFilters item = false) :
    processOne fm tm st item = st := by
  simp [processOne, h]

theorem processOne_eq_seen (fm tm : List (String × String)) (st : ProcState)
    (item : String × Game) (hb : passesFilters item = true)
    (hm : item.1 ∈ st.processed) : processOne fm tm st item = st := by
  simp [processOne, hb, hm]

theorem processOne_eq_reject (fm tm : List (String × String)) (st : ProcState)
    (item : String × Game) (hb : passesFilters item = true)
    (hm : item.1 ∉ st.processed)
    (hres : process_single_game_data fm tm item.2 item.1 = none) :
    processOne fm tm st item = st := by
  simp [processOne, hb, hm, hres]

theorem processOne_eq_accept (fm tm : List (String × String)) (st : ProcState)
    (item : String × Game) (row : GameRow) (hb : passesFilters item = true)
    (hm : item.1 ∉ st.processed)
    (hres : process_single_game_data fm tm item.2 item.1 = some row) :
    processOne fm tm st item =
      ⟨st.batch ++ [row], st.processed.insert item.1, true⟩ := by
  simp [processOne, hb, hm, hres]

theorem processOne_processed_mono (fm tm : List (String × String))
    (st : ProcState) (item : String × Game) (x : String)
    (hx : x ∈ st.processed) : x ∈ (processOne fm tm st item).processed := by
  cases hb : passesFilters item with
  | false => rw [processOne_eq_filtered fm tm st item hb]; exact hx
  | true =>
    by_cases hm : item.1 ∈ st.processed
    · rw [processOne_eq_seen fm tm st item hb hm]; exact hx
    · cases hres : process_single_game_data fm tm item.2 item.1 with
      | none => rw [processOne_eq_reject fm tm st item hb hm hres]; exact hx
      | some row =>
        rw [processOne_eq_accept fm tm st item row hb hm hres]
        simp only [List.mem_insert_iff]
        exact Or.inr hx

theorem processOne_skip (fm tm : List (String × String)) (st : ProcState)
    (item : String × Game)
    (h : acceptsItem fm tm item = false ∨ item.1 ∈ st.processed) :
    processOne fm tm st item = st := by
  cases hb : passesFilters item with
  | false => exact processOne_eq_filtered fm tm st item hb
  | true =>
    by_cases hm : item.1 ∈ st.processed
    · exact processOne_eq_seen fm tm st item hb hm
    · rcases h with h | h
      · cases hres : process_single_game_data fm tm item.2 item.1 with
        | none => exact processOne_eq_reject fm tm st item hb hm hres
        | some row =>
          exfalso
          simp [acceptsItem, hb, hres] at h
      · exact absurd h hm

theorem processOne_accept_mem (fm tm : List (String × String)) (st : ProcState)
    (item : String × Game) (h : acceptsItem fm tm item = true) :
    item.1 ∈ (processOne fm tm st item).processed := by
  simp only [acceptsItem, Bool.and_eq_true] at h
  obtain ⟨hpf, hsome⟩ := h
  by_cases hm : item.1 ∈ st.processed
  · rw [processOne_eq_seen fm tm st item hpf hm]; exact hm
  · cases hres : process_single_game_data fm tm item.2 item.1 with
    | none => rw [hres] at hsome; simp at hsome
    | some row =>
      rw [processOne_eq_accept fm tm st item row hpf hm hres]
      simp [List.mem_insert_iff]

theorem foldl_processed_mono (fm tm : List (String × String))
    (l : List (String × Game)) (st : ProcState) (x : String)
    (hx : x ∈ st.processed) :
    x ∈ (l.foldl (processOne fm tm) st).processed := by
  induction l generalizing st with
  | nil => exact hx
  | cons a l ih =>
    exact ih _ (processOne_processed_mono fm tm st a x hx)

theorem foldl_accept_mem (fm tm : List (String × String))
    (l : List (String × Game)) (st : ProcState) (item : String × Game)
    (hmem : item ∈ l) (hacc : acceptsItem fm tm item = true) :
    item.1 ∈ (l.foldl (processOne fm tm) st).processed := by
  induction l generalizing st with
  | nil => cases hmem
  | cons a l ih =>
    rcases List.mem_cons.mp hmem with h | h
    · subst h
      exact foldl_processed_mono fm tm l _ item.1
        (processOne_accept_mem fm tm st item hacc)
    · exact ih _ h

theorem foldl_skip (fm tm : List (String × String))
    (l : List (String × Game)) (st : ProcState)
    (h : ∀ item ∈ l, acceptsItem fm tm item = false ∨ item.1 ∈ st.processed) :
    l.foldl (processOne fm tm) st = st := by
  induction l with
  | nil => rfl
  | cons a l ih =>
    have ha : processOne fm tm st a = st :=
      processOne_skip fm tm st a (h a (List.mem_cons_self a l))
    rw [List.foldl_cons, ha]
    exact ih (fun item hi => h item (List.mem_cons_of_mem a hi))

/-- Invariant of the per-game loop: the flag tracks non-emptiness of the
batch, the in-run processed set is exactly the loaded ids plus the batch's
ids, and no id is batched twice. -/
def StInv (known : List String) (st : ProcState) : Prop :=
  (st.flag = true ↔ st.batch ≠ []) ∧
  (∀ x, x ∈ st.processed ↔ x ∈ known ∨ x ∈ st.batch.map GameRow.game_id) ∧
  (st.batch.map GameRow.game_id).Nodup

theorem stInv_init (known : List String) :
    StInv known ⟨[], known, false⟩ := by
  refine ⟨by simp, fun x => by simp, by simp⟩

theorem stInv_processOne (fm tm : List (String × String)) (known : List String)
    (st : ProcState) (item : String × Game) (h : StInv known st) :
    StInv known (processOne fm tm st item) := by
  cases hb : passesFilters item with
  | false => rw [processOne_eq_filtered fm tm st item hb]; exact h
  | true =>
    by_cases hm : item.1 ∈ st.processed
    · rw [processOne_eq_seen fm tm st item hb hm]; exact h
    · cases hres : process_single_game_data fm tm item.2 item.1 with
      | none => rw [processOne_eq_reject fm tm st item hb hm hres]; exact h
      | some row =>
        rw [processOne_eq_accept fm tm st item row hb hm hres]
        have hid : row.game_id = item.1 :=
          process_game_id_eq fm tm item.2 item.1 row hres
        obtain ⟨hf, hp, hn⟩ := h
        refine ⟨by simp, ?_, ?_⟩
        · intro x
          simp only [List.map_append, List.map_cons, List.map_nil, hid,
            List.mem_insert_iff, List.mem_append, List.mem_singleton]
          rw [hp x]
          tauto
        · have hnotin : item.1 ∉ st.batch.map GameRow.game_id := by
            intro hc
            exact hm ((hp item.1).mpr (Or.inr hc))
          simp [List.nodup_append, hid, hn, hnotin]

theorem stInv_foldl (fm tm : List (String × String)) (known : List String)
    (l : List (String × Game)) (st : ProcState) (h : StInv known st) :
    StInv known (l.foldl (processOne fm tm) st) := by
  induction l generalizing st with
  | nil => exact h
  | cons a l ih => exact ih _ (stInv_processOne fm tm known st a h)

theorem stInv_cycleState (fm tm : List (String × String)) (known : List String)
    (feeds : List (List Game)) : StInv known (cycleState fm tm known feeds) :=
  stInv_foldl fm tm known (mergeGames feeds) _ (stInv_init known)

/-! Cycle-level helper lemmas. -/

theorem check_snd_eq_batch (fm tm : List (String × String))
    (te hc : Bool) (storeIds : List String) (ro : ReadOutcome)
    (feeds : List (List Game)) :
    (check_and_process_games fm tm te hc storeIds ro feeds true).2 =
      (cycleState fm tm (load_processed_games_from_db te hc storeIds ro) feeds).batch := by
  simp only [check_and_process_games]
  split
  · rename_i h
    exact h.symm
  · simp

theorem check_eq_of_batch_nil (fm tm : List (String × String))
    (te hc : Bool) (storeIds : List String) (ro : ReadOutcome)
    (feeds : List (List Game)) (appendOk : Bool)
    (h : (cycleState fm tm (load_processed_games_from_db te hc storeIds ro) feeds).batch = []) :
    check_and_process_games fm tm te hc storeIds ro feeds appendOk =
      ((cycleState fm tm (load_processed_games_from_db te hc storeIds ro) feeds).flag, []) := by
  simp only [check_and_process_games]
  rw [if_pos h]

/-- C1: running the cycle twice against an unchanged feed accepts zero games
the second time: every id persisted by the first run is returned by the
second run's known-id load, and the second cycle returns `false` with an
empty appended batch, for any feed whose observations carry distinct
identifiers. -/
theorem second_cycle_accepts_nothing (fm tm : List (String × String))
    (storeIds : List String) (feeds : List (List Game))
    (_hdistinct : (feeds.flatten.filterMap (fun g => g.game_id.map pyStr)).Nodup) :
    (∀ id ∈ (check_and_process_games fm tm true true storeIds .ok feeds true).2.map
        GameRow.game_id,
      id ∈ load_processed_games_from_db true true
        (storeIds ++ (check_and_process_games fm tm true true storeIds .ok
          feeds true).2.map GameRow.game_id) .ok) ∧
    check_and_process_games fm tm true true
        (storeIds ++ (check_and_process_games fm tm true true storeIds .ok
          feeds true).2.map GameRow.game_id) .ok feeds true
      = (false, []) := by
  have hrows := check_snd_eq_batch fm tm true true storeIds .ok feeds
  rw [hrows]
  have hinv1 := stInv_cycleState fm tm
    (load_processed_games_from_db true true storeIds .ok) feeds
  constructor
  · intro id hid
    rw [mem_load_ok]
    exact List.mem_append.mpr (Or.inr hid)
  · have hk2 : ∀ x,
        x ∈ load_processed_games_from_db true true
          (storeIds ++ (cycleState fm tm
            (load_processed_games_from_db true true storeIds .ok) feeds).batch.map
              GameRow.game_id) .ok ↔
        x ∈ storeIds ∨ x ∈ (cycleState fm tm
          (load_processed_games_from_db true true storeIds .ok) feeds).batch.map
            GameRow.game_id := by
      intro x
      rw [mem_load_ok, List.mem_append]
    have hacc1 : ∀ item ∈ mergeGames feeds, acceptsItem fm tm item = true →
        item.1 ∈ (cycleState fm tm
          (load_processed_games_from_db true true storeIds .ok) feeds).processed := by
      intro item him ha
      exact foldl_accept_mem fm tm (mergeGames feeds) _ item him ha
    have hskip : ∀ item ∈ mergeGames feeds,
        acceptsItem fm tm item = false ∨
        item.1 ∈ (⟨[], load_processed_games_from_db true true
          (storeIds ++ (cycleState fm tm
            (load_processed_games_from_db true true storeIds .ok) feeds).batch.map
              GameRow.game_id) .ok, false⟩ : ProcState).processed := by
      intro item him
      cases ha : acceptsItem fm tm item with
      | false => exact Or.inl rfl
      | true =>
        refine Or.inr ?_
        have hp := (hinv1.2.1 item.1).mp (hacc1 item him ha)
        rw [mem_load_ok] at hp ⊢
        rw [List.mem_append]
        exact hp
    have hfold := foldl_skip fm tm (mergeGames feeds) _ hskip
    have hcyc : cycleState fm tm
        (load_processed_games_from_db true true
          (storeIds ++ (cycleState fm tm
            (load_processed_games_from_db true true storeIds .ok) feeds).batch.map
              GameRow.game_id) .ok) feeds =
        ⟨[], load_processed_games_from_db true true
          (storeIds ++ (cycleState fm tm
            (load_processed_games_from_db true true storeIds .ok) feeds).batch.map
              GameRow.game_id) .ok, false⟩ := hfold
    rw [check_eq_of_batch_nil fm tm true true _ .ok feeds true (by rw [hcyc])]
    rw [hcyc]

/-- C1 witness: the §8 scenario run twice from an empty store accepts the
game only once; the second cycle returns `false` with nothing appended. -/
theorem second_cycle_accepts_nothing_witness :
    check_and_process_games fm8 tm8 true true
        ([] ++ (check_and_process_games fm8 tm8 true true [] .ok
          [[obs8]] true).2.map GameRow.game_id) .ok [[obs8]] true
      = (false, []) :=
  (second_cycle_accepts_nothing fm8 tm8 [] [[obs8]] (by decide)).2

theorem dlookup_mergefold_ne (l : List Game) (d : List (String × Game))
    (key : String)
    (h : ∀ g ∈ l, ∀ w, g.game_id = some w → pyStr w ≠ key) :
    dlookup (l.foldl (fun d g =>
      match g.game_id with
      | some v => dinsert d (pyStr v) g
      | none => d) d) key = dlookup d key := by
  induction l generalizing d with
  | nil => rfl
  | cons a l ih =>
    rw [List.foldl_cons]
    rw [ih _ (fun g hg => h g (List.mem_cons_of_mem a hg))]
    cases ha : a.game_id with
    | none => rfl
    | some w =>
      simp only
      rw [dlookup_dinsert_ne]
      exact h a (List.mem_cons_self a l) w ha

/-- C3: when the same identifier is returned by both query windows, the
merged dict holds the later ("today") query's observation for it, and the
finality/type/novelty filter runs over the merged dict, so each id yields at
most one batched row per cycle. -/
theorem merge_prefers_second_query (y t1 t2 : List Game) (g : Game) (v : PyVal)
    (hg : g.game_id = some v)
    (hafter : ∀ g' ∈ t2, ∀ w, g'.game_id = some w → pyStr w ≠ pyStr v) :
    dlookup (mergeGames [y, t1 ++ g :: t2]) (pyStr v) = some g ∧
    (∀ (fm tm : List (String × String)) (known : List String)
        (feeds : List (List Game)),
      ((cycleState fm tm known feeds).batch.map GameRow.game_id).Nodup) := by
  constructor
  · unfold mergeGames
    rw [List.foldl_cons, List.foldl_cons, List.foldl_nil, List.foldl_append,
      List.foldl_cons]
    rw [dlookup_mergefold_ne t2 _ _ hafter]
    simp only [hg]
    exact dlookup_dinsert_self _ (pyStr v) g
  · intro fm tm known feeds
    exact (stInv_cycleState fm tm known feeds).2.2

/-- C3 witness: a "yesterday" observation of the §8 game in progress is
overwritten by the "today" final observation, which alone is evaluated. -/
theorem merge_prefers_second_query_witness :
    dlookup (mergeGames [[{ obs8 with status := some "In Progress" }],
        [] ++ obs8 :: []]) (pyStr (.vStr "2024_07_04_BOS_NYA")) = some obs8 :=
  (merge_prefers_second_query [{ obs8 with status := some "In Progress" }]
    [] [] obs8 (.vStr "2024_07_04_BOS_NYA") rfl (by simp)).1

/-- C6: a failing bulk append of a non-empty batch makes the cycle return
`false` with nothing persisted and the export step skipped; under a
succeeding append the cycle returns `true` exactly when the batch is
non-empty. -/
theorem append_failure_reports_false (fm tm : List (String × String))
    (te hc : Bool) (storeIds : List String) (ro : ReadOutcome)
    (feeds : List (List Game)) :
    ((cycleState fm tm (load_processed_games_from_db te hc storeIds ro)
        feeds).batch ≠ [] →
      check_and_process_games fm tm te hc storeIds ro feeds false = (false, []) ∧
      main_export_runs fm tm te hc storeIds ro feeds false = false) ∧
    ((check_and_process_games fm tm te hc storeIds ro feeds true).1 = true ↔
      (cycleState fm tm (load_processed_games_from_db te hc storeIds ro)
        feeds).batch ≠ []) := by
  have hinv := stInv_cycleState fm tm
    (load_processed_games_from_db te hc storeIds ro) feeds
  constructor
  · intro hne
    have h1 : check_and_process_games fm tm te hc storeIds ro feeds false
        = (false, []) := by
      simp only [check_and_process_games]
      rw [if_neg hne]
      simp
    exact ⟨h1, by simp only [main_export_runs, h1]⟩
  · simp only [check_and_process_games]
    by_cases hb : (cycleState fm tm
        (load_processed_games_from_db te hc storeIds ro) feeds).batch = []
    · rw [if_pos hb]
      simp only [hb]
      rw [hinv.1]
      simp [hb]
    · rw [if_neg hb]
      exact hinv.1

/-- C6 witness: on the §8 scenario batch the failed append yields `(false,
nothing persisted)` and no export. -/
theorem append_failure_reports_false_witness :
    check_and_process_games fm8 tm8 true true [] .ok [[obs8]] false
        = (false, []) ∧
      main_export_runs fm8 tm8 true true [] .ok [[obs8]] false = false :=
  (append_failure_reports_false fm8 tm8 true true [] .ok [[obs8]]).1 (by decide)

/-- C9: a merged observation with no status field defaults to "Unknown",
which fails the finality test, so the loop state is unchanged — nothing is
resolved, batched, or marked processed; an absent game type is skipped the
same way. -/
theorem absent_status_silent_skip :
    (∀ (fm tm : List (String × String)) (st : ProcState)
        (item : String × Game), item.2.status = none →
        processOne fm tm st item = st) ∧
    (∀ (fm tm : List (String × String)) (st : ProcState)
        (item : String × Game), item.2.game_type = none →
        processOne fm tm st item = st) ∧
    isCompletedStatus (lowerStr "Unknown") = false := by
  have hq : isCompletedStatus (lowerStr "Unknown") = false := by decide
  refine ⟨?_, ?_, hq⟩
  · intro fm tm st item h
    apply processOne_eq_filtered
    simp [passesFilters, h, hq]
  · intro fm tm st item h
    apply processOne_eq_filtered
    simp [passesFilters, h]
  
/-- C9 witness: the §8 observation without its status field leaves the loop
state untouched. -/
theorem absent_status_silent_skip_witness :
    processOne fm8 tm8 ⟨[], [], false⟩ ("2024_07_04_BOS_NYA", gNoStatus)
      = ⟨[], [], false⟩ :=
  absent_status_silent_skip.1 fm8 tm8 ⟨[], [], false⟩
    ("2024_07_04_BOS_NYA", gNoStatus) rfl

/-- C10: a known-identifier read that fails immediately yields the ids
accumulated so far (the empty set when it fails at once, the first `k` read
ids in general), the cycle proceeds with that partial set, and a game whose
id is already persisted is accepted and appended a second time. -/
theorem failed_id_load_reaccepts :
    (∀ storeIds : List String,
        load_processed_games_from_db true true storeIds (.failAfter 0) = []) ∧
    (∀ (storeIds : List String) (k : Nat) (x : String),
        x ∈ load_processed_games_from_db true true storeIds (.failAfter k) ↔
          x ∈ storeIds.take k) ∧
    (∀ (fm tm : List (String × String)) (storeIds : List String) (g : Game)
        (v : PyVal) (row : GameRow),
        g.game_id = some v → pyStr v ∈ storeIds →
        passesFilters (pyStr v, g) = true →
        process_single_game_data fm tm g (pyStr v) = some row →
        check_and_process_games fm tm true true storeIds (.failAfter 0)
          [[g]] true = (true, [row])) := by
  refine ⟨?_, ?_, ?_⟩
  · intro storeIds
    simp [load_processed_games_from_db]
  · intro storeIds k x
    simp [load_processed_games_from_db, mem_foldl_insert]
  · intro fm tm storeIds g v row hg hmem hpf hres
    have hknown : load_processed_games_from_db true true storeIds
        (.failAfter 0) = [] := by
      simp [load_processed_games_from_db]
    have hmerge : mergeGames [[g]] = [(pyStr v, g)] := by
      simp [mergeGames, hg, dinsert]
    have hcyc : cycleState fm tm (load_processed_games_from_db true true
        storeIds (.failAfter 0)) [[g]] = ⟨[row], [pyStr v], true⟩ := by
      unfold cycleState
      rw [hknown, hmerge, List.foldl_cons, List.foldl_nil]
      exact processOne_eq_accept fm tm ⟨[], [], false⟩ (pyStr v, g) row hpf
        (by simp) hres
    simp only [check_and_process_games, hcyc]
    simp

/-- C10 witness: with the §8 game already persisted but the id read failing
at once, the cycle accepts and appends the game again. -/
theorem failed_id_load_reaccepts_witness :
    check_and_process_games fm8 tm8 true true ["2024_07_04_BOS_NYA"]
        (.failAfter 0) [[obs8]] true = (true, [row8]) :=
  failed_id_load_reaccepts.2.2 fm8 tm8 ["2024_07_04_BOS_NYA"] obs8
    (.vStr "2024_07_04_BOS_NYA") row8 rfl (by decide) (by decide) (by decide)

/-- C2: `process_single_game_data` returns `None` exactly when one of the
five validation checks fails — date falsy/absent, an essential field absent
or null, date unparseable, a side unresolvable, a score unparseable — each
being a per-item skip (the function is total and returns, never raises); in
particular an observation missing `home_score` contributes zero output
rows. -/
theorem resolver_rejects_iff (fm tm : List (String × String)) (g : Game)
    (gid : String) :
    (process_single_game_data fm tm g gid = none ↔
      (g.game_date = none ∨
       g.away_name = none ∨ g.home_name = none ∨
       g.away_score = none ∨ g.home_score = none ∨
       (∀ s, g.game_date = some s → parseDate s = none) ∨
       (∃ an, g.away_name = some an ∧ resolveName fm tm an = none) ∨
       (∃ hn, g.home_name = some hn ∧ resolveName fm tm hn = none) ∨
       (∃ v, g.away_score = some v ∧ pyIntOfVal v = none) ∨
       (∃ v, g.home_score = some v ∧ pyIntOfVal v = none))) ∧
    (g.home_score = none → process_single_game_data fm tm g gid = none) := by
  have hiff : process_single_game_data fm tm g gid = none ↔
      (g.game_date = none ∨
       g.away_name = none ∨ g.home_name = none ∨
       g.away_score = none ∨ g.home_score = none ∨
       (∀ s, g.game_date = some s → parseDate s = none) ∨
       (∃ an, g.away_name = some an ∧ resolveName fm tm an = none) ∨
       (∃ hn, g.home_name = some hn ∧ resolveName fm tm hn = none) ∨
       (∃ v, g.away_score = some v ∧ pyIntOfVal v = none) ∨
       (∃ v, g.home_score = some v ∧ pyIntOfVal v = none)) := by
    obtain ⟨gi, gd, an, hn, av, hv, stt, gt⟩ := g
    unfold process_single_game_data
    cases gd with
    | none => simp
    | some ds =>
      dsimp only
      by_cases hds : ds = ""
      · subst hds
        refine iff_of_true (by rw [if_pos rfl]) ?_
        refine Or.inr (Or.inr (Or.inr (Or.inr (Or.inr (Or.inl ?_)))))
        intro s hs
        cases hs
        decide
      · cases an with
        | none => simp [hds]
        | some an =>
          cases hn with
          | none => simp [hds]
          | some hn =>
            cases av with
            | none => simp [hds]
            | some av =>
              cases hv with
              | none => simp [hds]
              | some hv =>
                rw [if_neg hds]
                cases hpd : parseDate ds with
                | none =>
                  refine iff_of_true (by simp [hpd]) ?_
                  refine Or.inr (Or.inr (Or.inr (Or.inr (Or.inr (Or.inl ?_)))))
                  intro s hs
                  cases hs
                  exact hpd
                | some d =>
                  cases hrv : resolveName fm tm an with
                  | none =>
                    refine iff_of_true (by simp [hpd, hrv]) ?_
                    exact Or.inr (Or.inr (Or.inr (Or.inr (Or.inr (Or.inr
                      (Or.inl ⟨an, rfl, hrv⟩))))))
                  | some vf =>
                    cases hrh : resolveName fm tm hn with
                    | none =>
                      refine iff_of_true (by simp [hpd, hrv, hrh]) ?_
                      exact Or.inr (Or.inr (Or.inr (Or.inr (Or.inr (Or.inr
                        (Or.inr (Or.inl ⟨hn, rfl, hrh⟩)))))))
                    | some hf =>
                      cases hav : pyIntOfVal av with
                      | none =>
                        refine iff_of_true (by simp [hpd, hrv, hrh, hav]) ?_
                        exact Or.inr (Or.inr (Or.inr (Or.inr (Or.inr (Or.inr
                          (Or.inr (Or.inr (Or.inl ⟨av, rfl, hav⟩))))))))
                      | some a =>
                        cases hhv : pyIntOfVal hv with
                        | none =>
                          refine iff_of_true
                            (by simp [hpd, hrv, hrh, hav, hhv]) ?_
                          exact Or.inr (Or.inr (Or.inr (Or.inr (Or.inr
                            (Or.inr (Or.inr (Or.inr (Or.inr
                              ⟨hv, rfl, hhv⟩))))))))
                        | some b =>
                          refine iff_of_false
                            (by simp [hpd, hrv, hrh, hav, hhv]) ?_
                          rintro (h | h | h | h | h | h | h | h | h | h)
                          · exact Option.noConfusion h
                          · exact Option.noConfusion h
                          · exact Option.noConfusion h
                          · exact Option.noConfusion h
                          · exact Option.noConfusion h
                          · exact absurd (h ds rfl) (by simp [hpd])
                          · obtain ⟨an', ha, hb2⟩ := h
                            cases ha
                            rw [hrv] at hb2
                            exact Option.noConfusion hb2
                          · obtain ⟨hn', ha, hb2⟩ := h
                            cases ha
                            rw [hrh] at hb2
                            exact Option.noConfusion hb2
                          · obtain ⟨v', ha, hb2⟩ := h
                            cases ha
                            rw [hav] at hb2
                            exact Option.noConfusion hb2
                          · obtain ⟨v', ha, hb2⟩ := h
                            cases ha
                            rw [hhv] at hb2
                            exact Option.noConfusion hb2
  exact ⟨hiff, fun h => hiff.mpr (Or.inr (Or.inr (Or.inr (Or.inr
    (Or.inl h)))))⟩

/-- C2 witness: the §8 observation stripped of `home_score` is rejected. -/
theorem resolver_rejects_iff_witness :
    process_single_game_data fm8 tm8 gNoHome "2024_07_04_BOS_NYA" = none :=
  (resolver_rejects_iff fm8 tm8 gNoHome "2024_07_04_BOS_NYA").2 rfl

theorem dlookup_mem (d : List (String × α)) (k : String) (v : α)
    (h : dlookup d k = some v) : v ∈ d.map Prod.snd := by
  induction d with
  | nil => cases h
  | cons p d ih =>
    by_cases hp : p.1 = k
    · rw [dlookup, if_pos hp] at h
      cases h
      exact List.mem_cons_self _ _
    · rw [dlookup, if_neg hp] at h
      exact List.mem_cons_of_mem _ (ih h)

theorem resolveName_mem (fm tm : List (String × String)) (full c : String)
    (h : resolveName fm tm full = some c) :
    c ≠ "" ∧ (c ∈ fm.map Prod.snd ∨ c ∈ tm.map Prod.snd) := by
  simp only [resolveName] at h
  by_cases ht : truthyOptStr
      (if truthyOptStr (dlookup fm (lowerStr full)) = true then
        dlookup fm (lowerStr full)
      else
        match (splitWS full).getLast? with
        | none => dlookup fm (lowerStr full)
        | some tok =>
          match dlookup tm (lowerStr tok) with
          | some v => some v
          | none => dlookup fm (lowerStr full)) = true
  · rw [if_pos ht] at h
    rw [h] at ht
    have hne : c ≠ "" := by
      simp [truthyOptStr] at ht
      exact ht
    refine ⟨hne, ?_⟩
    by_cases h1 : truthyOptStr (dlookup fm (lowerStr full)) = true
    · rw [if_pos h1] at h
      exact Or.inl (dlookup_mem fm _ c h)
    · rw [if_neg h1] at h
      cases hlast : (splitWS full).getLast? with
      | none =>
        rw [hlast] at h
        exact Or.inl (dlookup_mem fm _ c h)
      | some tok =>
        rw [hlast] at h
        dsimp only at h
        cases htm : dlookup tm (lowerStr tok) with
        | none =>
          rw [htm] at h
          exact Or.inl (dlookup_mem fm _ c h)
        | some v =>
          rw [htm] at h
          cases h
          exact Or.inr (dlookup_mem tm _ c htm)
  · rw [if_neg ht] at h
    cases h

/-- C5 counterexample: a registry entry stored under a non-lower-cased key
is visible to a raw lookup but resolution still fails — there is no
raw-case retry in the code. -/
theorem resolve_raw_retry_cex :
    dlookup [("Boston Sox", "BOS")] "Boston Sox" = some "BOS" ∧
    resolveName [("Boston Sox", "BOS")] [] "Boston Sox" = none := by decide

/-- C5 (amended): resolution tries the lower-cased full-name lookup, then
the lower-cased last-token nickname lookup (whose miss falls back to the
lower-cased full-name lookup again); when every lower-cased lookup misses
the result is not-found — no lookup is retried against the raw string. -/
theorem resolve_strategy_order :
    (∀ (fm tm : List (String × String)) (full c : String),
        dlookup fm (lowerStr full) = some c → c ≠ "" →
        resolveName fm tm full = some c) ∧
    (∀ (fm tm : List (String × String)) (full tok c : String),
        dlookup fm (lowerStr full) = none →
        (splitWS full).getLast? = some tok →
        dlookup tm (lowerStr tok) = some c → c ≠ "" →
        resolveName fm tm full = some c) ∧
    (∀ (fm tm : List (String × String)) (full : String),
        dlookup fm (lowerStr full) = none →
        (∀ tok, (splitWS full).getLast? = some tok →
          dlookup tm (lowerStr tok) = none) →
        resolveName fm tm full = none) := by
  refine ⟨?_, ?_, ?_⟩
  · intro fm tm full c h1 h2
    simp [resolveName, h1, truthyOptStr, h2]
  · intro fm tm full tok c h1 h2 h3 h4
    simp [resolveName, h1, h2, h3, truthyOptStr, h4]
  · intro fm tm full h1 h2
    cases hlast : (splitWS full).getLast? with
    | none => simp [resolveName, h1, hlast, truthyOptStr]
    | some tok => simp [resolveName, h1, hlast, h2 tok hlast, truthyOptStr]

/-- C5 witness: with only a raw-cased nickname entry present, the
lower-cased lookups miss and resolution returns not-found. -/
theorem resolve_strategy_order_witness :
    resolveName [("X", "Y")] [("Sox", "BOS")] "Boston Sox" = none :=
  resolve_strategy_order.2.2 [("X", "Y")] [("Sox", "BOS")] "Boston Sox"
    (by decide)
    (fun tok htok => by
      rw [show (splitWS "Boston Sox").getLast? = some "Sox" from by decide]
        at htok
      cases htok
      decide)

/-- C7 counterexample: a negative string score passes every check, so the
produced record's visitor score is negative — non-negativity is not
enforced. -/
theorem resolver_negative_score_cex :
    process_single_game_data fm8 tm8 obsNeg "2024_07_04_BOS_NYA" =
      some ⟨"2024_07_04_BOS_NYA", "20240704", "NYA", "BOS", -1, 5⟩ ∧
    (⟨"2024_07_04_BOS_NYA", "20240704", "NYA", "BOS", -1, 5⟩ :
      GameRow).visitor_score < 0 := by decide

/-- C7 (amended): every record the resolver produces has non-empty
franchise codes drawn from the registry mappings, and scores equal to the
integer parses of the observation's score fields — hence non-negative
whenever the observed scores are. -/
theorem resolver_record_invariants (fm tm : List (String × String))
    (g : Game) (gid : String) (row : GameRow)
    (h : process_single_game_data fm tm g gid = some row) :
    row.visitor_team ≠ "" ∧ row.home_team ≠ "" ∧
    (row.visitor_team ∈ fm.map Prod.snd ∨ row.visitor_team ∈ tm.map Prod.snd) ∧
    (row.home_team ∈ fm.map Prod.snd ∨ row.home_team ∈ tm.map Prod.snd) ∧
    (∃ v, g.away_score = some v ∧ pyIntOfVal v = some row.visitor_score) ∧
    (∃ v, g.home_score = some v ∧ pyIntOfVal v = some row.home_score) ∧
    ((∀ v n, g.away_score = some v → pyIntOfVal v = some n → 0 ≤ n) →
      0 ≤ row.visitor_score) ∧
    ((∀ v n, g.home_score = some v → pyIntOfVal v = some n → 0 ≤ n) →
      0 ≤ row.home_score) := by
  rw [process_some_iff] at h
  obtain ⟨ds, d, an, hn, av, hv, vf, hf, a, b, h1, h2, h3, h4, h5, h6, h7,
    h8, h9, h10, h11, h12⟩ := h
  subst h12
  obtain ⟨hne1, hm1⟩ := resolveName_mem fm tm an vf h8
  obtain ⟨hne2, hm2⟩ := resolveName_mem fm tm hn hf h9
  exact ⟨hne1, hne2, hm1, hm2, ⟨av, h5, h10⟩, ⟨hv, h6, h11⟩,
    fun hp => hp av a h5 h10, fun hp => hp hv b h6 h11⟩

/-- C7 witness: the §8 record's codes come from the registry and its scores
are the parses of the observed scores (non-negative here). -/
theorem resolver_record_invariants_witness :
    row8.visitor_team ≠ "" ∧ row8.home_team ≠ "" ∧
    (row8.visitor_team ∈ fm8.map Prod.snd ∨
      row8.visitor_team ∈ tm8.map Prod.snd) ∧
    (row8.home_team ∈ fm8.map Prod.snd ∨
      row8.home_team ∈ tm8.map Prod.snd) ∧
    (∃ v, obs8.away_score = some v ∧ pyIntOfVal v = some row8.visitor_score) ∧
    (∃ v, obs8.home_score = some v ∧ pyIntOfVal v = some row8.home_score) ∧
    ((∀ v n, obs8.away_score = some v → pyIntOfVal v = some n → 0 ≤ n) →
      0 ≤ row8.visitor_score) ∧
    ((∀ v n, obs8.home_score = some v → pyIntOfVal v = some n → 0 ≤ n) →
      0 ≤ row8.home_score) :=
  resolver_record_invariants fm8 tm8 obs8 "2024_07_04_BOS_NYA" row8 (by decide)

/-- C4: a reference row with a nickname registers a name variant iff its
franchise code is present, its years parse, and its active range (with the
open-ended marker standing for `as_of_year + 1`) contains the build year;
rows without a franchise register nothing; rows whose years fail to parse
are skipped without affecting the rest of the build; and a registry built
from the 1962–1969 "Mets" row resolves "Mets" exactly for build years in
1962–1969. -/
theorem registry_registration_iff :
    (∀ (y : Int) (r : TeamRow), r.FRANCHISE = none →
        buildMappings [r] y = ([], [])) ∧
    (∀ (y : Int) (r : TeamRow) (nick f : String),
        r.NICKNAME = some nick → r.FRANCHISE = some f →
        (((buildMappings [r] y).1 ≠ [] ∨ (buildMappings [r] y).2 ≠ []) ↔
          ∃ fy, pyIntOfCell r.FIRST = some fy ∧ fy ≤ y ∧
            (match r.LAST with
             | some s => s = "Present" ∨ ∃ ly, parsePyInt s = some ly ∧ y ≤ ly
             | none => True))) ∧
    (∀ (y : Int) (rows1 rows2 : List TeamRow) (r : TeamRow),
        (pyIntOfCell r.FIRST = none ∨
          ∃ s, r.LAST = some s ∧ s ≠ "Present" ∧ parsePyInt s = none) →
        buildMappings (rows1 ++ r :: rows2) y =
          buildMappings (rows1 ++ rows2) y) ∧
    (∀ y : Int,
        resolveName (buildMappings [metsRow] y).2
            (buildMappings [metsRow] y).1 "Mets" = some "NYN" ↔
          (1962 ≤ y ∧ y ≤ 1969)) := by
  refine ⟨?_, ?_, ?_, ?_⟩
  · intro y r hF
    simp [buildMappings, buildStep, hF]
  · intro y r nick f hnick hF
    simp only [buildMappings, List.foldl_cons, List.foldl_nil, buildStep, hF,
      hnick]
    cases hfy : pyIntOfCell r.FIRST with
    | none => simp
    | some fy =>
      cases hlast : r.LAST with
      | none =>
        dsimp only
        by_cases hcond : fy ≤ y ∧ y ≤ y + 1
        · rw [if_pos hcond]
          simp only [dinsert]
          constructor
          · intro _
            exact ⟨fy, rfl, hcond.1, trivial⟩
          · intro _
            exact Or.inl (by simp)
        · rw [if_neg hcond]
          simp only [ne_eq, not_true_eq_false, or_self, false_iff,
            not_exists]
          intro fy'
          rintro ⟨h1, h2, -⟩
          cases h1
          exact hcond ⟨h2, by omega⟩
      | some sl =>
        dsimp only
        by_cases hp : sl = "Present"
        · subst hp
          rw [if_pos rfl]
          dsimp only
          by_cases hcond : fy ≤ y ∧ y ≤ y + 1
          · rw [if_pos hcond]
            simp only [dinsert]
            constructor
            · intro _
              exact ⟨fy, rfl, hcond.1, Or.inl trivial⟩
            · intro _
              exact Or.inl (by simp)
          · rw [if_neg hcond]
            simp only [ne_eq, not_true_eq_false, or_self, false_iff,
              not_exists]
            intro fy'
            rintro ⟨h1, h2, -⟩
            cases h1
            exact hcond ⟨h2, by omega⟩
        · rw [if_neg hp]
          cases hl : parsePyInt sl with
          | none =>
            simp only [ne_eq, not_true_eq_false, or_self, false_iff,
              not_exists]
            intro fy'
            rintro ⟨h1, h2, (h | ⟨ly, hly, -⟩)⟩
            · exact hp h
            · cases hly
          | some ly =>
            dsimp only
            by_cases hcond : fy ≤ y ∧ y ≤ ly
            · rw [if_pos hcond]
              simp only [dinsert]
              constructor
              · intro _
                exact ⟨fy, rfl, hcond.1, Or.inr ⟨ly, rfl, hcond.2⟩⟩
              · intro _
                exact Or.inl (by simp)
            · rw [if_neg hcond]
              simp only [ne_eq, not_true_eq_false, or_self, false_iff,
                not_exists]
              intro fy'
              rintro ⟨h1, h2, (h | ⟨ly', hly', hyly⟩)⟩
              · exact hp h
              · cases h1
                cases hly'
                exact hcond ⟨h2, hyly⟩
  · intro y rows1 rows2 r hbad
    have hstep : ∀ maps, buildStep y maps r = maps := by
      intro maps
      unfold buildStep
      rcases hbad with hbad | ⟨sl, hsl, hsp, hppi⟩
      · cases hF : r.FRANCHISE with
        | none => rfl
        | some f => simp [hbad]
      · cases hF : r.FRANCHISE with
        | none => rfl
        | some f =>
          cases hfy : pyIntOfCell r.FIRST with
          | none => simp
          | some fy => simp [hsl, hsp, hppi]
    unfold buildMappings
    rw [List.foldl_append, List.foldl_append, List.foldl_cons, hstep]
  · intro y
    have h69 : parsePyInt "1969" = some (1969 : Int) := by decide
    have hml : lowerStr "Mets" = "mets" := by decide
    by_cases hy : (1962 : Int) ≤ y ∧ y ≤ 1969
    · have hb : buildMappings [metsRow] y = ([("mets", "NYN")], []) := by
        simp [buildMappings, buildStep, metsRow, pyIntOfCell, pyIntOfVal,
          h69, hml, hy, dinsert]
      rw [hb]
      have hr : resolveName [] [("mets", "NYN")] "Mets" = some "NYN" := by
        decide
      simp [hr, hy]
    · have hb : buildMappings [metsRow] y = ([], []) := by
        simp [buildMappings, buildStep, metsRow, pyIntOfCell, pyIntOfVal,
          h69, hy]
      rw [hb]
      have hr : resolveName [] ([] : List (String × String)) "Mets"
          = none := by decide
      simp [hr, hy]

/-- C4 witness: the Mets row registers its nickname for build year 1965. -/
theorem registry_registration_iff_witness :
    (buildMappings [metsRow] 1965).1 ≠ [] ∨
      (buildMappings [metsRow] 1965).2 ≠ [] :=
  (registry_registration_iff.2.1 1965 metsRow "Mets" "NYN" rfl rfl).mpr
    ⟨1962, by decide, by decide, Or.inr ⟨1969, by decide, by decide⟩⟩

/-- C8 counterexample: on the §8 scenario the single accepted record's date
field is the re-formatted `"20240704"`, not the claimed `"2024-07-04"`. -/
theorem scenario_date_format_cex :
    (check_and_process_games fm8 tm8 true true [] .ok [[obs8]] true).2.map
        GameRow.date = ["20240704"] ∧
      "20240704" ≠ "2024-07-04" := by decide

/-- C8 (amended): the §8 scenario cycle accepts exactly the one record
`{game_id 2024_07_04_BOS_NYA, date "20240704", visitor NYA, home BOS,
3, 5}` — as the claim states except that the date is stored re-formatted
as `YYYYMMDD`. -/
theorem scenario_accepts_one_record :
    check_and_process_games fm8 tm8 true true [] .ok [[obs8]] true
      = (true, [row8]) := by decide

end Scorigami
